import Mathlib

/-!
Verification of the outbound error/alert delivery pipeline of the
winston-logger repository: the error serializer (src/utils/error-serialization.ts
and src/utils/truncation.ts), the Discord rate limiter
(src/transports/discord-rate-limiter.ts) and the Discord webhook transport
(discord-webhook-transport source file).

Modelling conventions used throughout this file:
* JavaScript strings are modelled as lists of characters (`JStr`); `.length`,
  `.substring`, concatenation and template strings map to the corresponding
  list operations.
* JavaScript `Option`-like fields follow a truthiness convention: a field whose
  source code is consumed through a truthiness test (`if (x) ...`, `x || d`,
  `x ? a : b`) is modelled as `Option _`, where `none` stands for the field
  being absent or holding a falsy value, and `some v` stands for a present
  truthy value.  Fields that the source tests with `!== undefined` keep
  falsy-but-defined values inside `some` (see `code` below, which carries its
  own truthiness predicate for the places that do test it truthily).
* Timestamps (`Date.now()`) are integers in milliseconds; the model clock
  advances exactly at the `sleep` calls of the transport, which are the only
  suspension points of the pipeline.
* HTTP traffic is an oracle: a function from webhook URL and per-URL request
  number to the outcome of that request (2xx with rate-limit headers, an HTTP
  error response, or a network/timeout failure).
-/

/-- JavaScript string, modelled as its list of characters. -/
abbrev JStr := List Char

/-- Embed a Lean string literal as a `JStr`. -/
def jstr (s : String) : JStr := s.data

/-- Model of `truncateString` from src/utils/truncation.ts:
`if (!str || str.length <= limit) return str; return str.substring(0, limit - 3) + "...";`
(`limit - 3` is clamped at 0 by `substring`, which `Nat` subtraction mirrors). -/
def truncateString (str : JStr) (limit : Nat) : JStr :=
  if str = [] ∨ str.length ≤ limit then str
  else str.take (limit - 3) ++ jstr "..."

/-- Model of `stringifyAndTruncate` from src/utils/truncation.ts, restricted to
the string form of the value: for string input the source returns
`truncateString(value, limit)`, and for other values it first converts to the
JSON/string form, which the model carries already converted. -/
def stringifyAndTruncate (value : JStr) (limit : Nat) : JStr :=
  truncateString value limit

theorem truncateString_of_le {s : JStr} {limit : Nat} (h : s.length ≤ limit) :
    truncateString s limit = s := by
  unfold truncateString
  simp [h]

theorem truncateString_length_of_lt {s : JStr} {limit : Nat}
    (h3 : 3 ≤ limit) (hlt : limit < s.length) :
    (truncateString s limit).length = limit := by
  unfold truncateString
  have hne : ¬(s = [] ∨ s.length ≤ limit) := by
    rintro (rfl | h)
    · simp at hlt
    · omega
  rw [if_neg hne]
  simp [jstr, List.length_take]
  omega

theorem truncateString_eq_take_append {s : JStr} {limit : Nat}
    (hlt : limit < s.length) :
    truncateString s limit = s.take (limit - 3) ++ jstr "..." := by
  unfold truncateString
  have hne : ¬(s = [] ∨ s.length ≤ limit) := by
    rintro (rfl | h)
    · simp at hlt
    · omega
  rw [if_neg hne]

theorem truncateString_idem (s : JStr) (limit : Nat) :
    truncateString (truncateString s limit) limit = truncateString s limit := by
  by_cases hbase : s = [] ∨ s.length ≤ limit
  · unfold truncateString
    rw [if_pos hbase, if_pos hbase]
  · push_neg at hbase
    obtain ⟨hne, hlt⟩ := hbase
    have hlt : limit < s.length := by omega
    rw [truncateString_eq_take_append hlt]
    by_cases h3 : 3 ≤ limit
    · have hlen : (s.take (limit - 3) ++ jstr "...").length = limit := by
        simp [jstr, List.length_take]
        omega
      exact truncateString_of_le (le_of_eq hlen)
    · -- limit < 3: the truncated form is exactly the marker, which re-truncates
      -- to itself because take (limit - 3) = take 0 = [].
      have htake : limit - 3 = 0 := by omega
      rw [htake]
      simp only [List.take_zero, List.nil_append]
      unfold truncateString
      have hmark : ¬((jstr "..." : JStr) = [] ∨ (jstr "...").length ≤ limit) := by
        rintro (h | h)
        · simp [jstr] at h
        · simp [jstr] at h; omega
      rw [if_neg hmark, htake]
      simp

/-- Error `code` values (`string | number` in the source). -/
inductive Code where
  | str (s : JStr)
  | num (n : Int)
deriving DecidableEq

/-- JavaScript truthiness of a `code` value: `0` and the empty string are falsy. -/
def Code.truthy : Code → Bool
  | .str s => !s.isEmpty
  | .num n => n != 0

/-- HTTP response details attached to an error-like input (axios style).
`data` carries the already-stringified body (see `stringifyAndTruncate`). -/
structure HttpResp where
  status : Option Int
  statusText : Option JStr
  data : Option JStr
deriving DecidableEq

/-- Input value handed to `serializeError`.  `isErrorLike` from
src/utils/validation.ts sorts every value into one of two classes: values that
are non-null objects with a string `message` field (`errLike`, with the fields
that `serialize-error` preserves) and everything else (`nonError`, carrying its
`String(value)` form).  The `cause` field follows the truthiness convention:
`some c` models a present, truthy cause value. -/
inductive Value where
  | nonError (str : JStr)
  | errLike (name : Option JStr) (message : JStr) (stack : Option JStr)
      (code : Option Code) (resp : Option HttpResp) (cause : Option Value)

/-- Whether `isErrorLike` accepts the value. -/
def isErrorLike : Value → Bool
  | .nonError _ => false
  | .errLike _ _ _ _ _ _ => true

/-- Serialization limits (src/types, used by error-serialization.ts). -/
structure SerializationLimits where
  stackLimit : Nat
  responseDataLimit : Nat
  causeMaxDepth : Nat
deriving DecidableEq

/-- Default limits from error-serialization.ts. -/
def DEFAULT_LIMITS : SerializationLimits := ⟨1000, 500, 3⟩

/-- HTTP details recorded on a serialized error. -/
structure HttpDetails where
  status : Option Int
  statusText : Option JStr
  data : Option JStr
deriving DecidableEq

/-- Output node of the serializer (`ErrorObject` in src/types). -/
inductive ErrorObject where
  | mk (name : Option JStr) (message : JStr) (stack : Option JStr)
      (code : Option Code) (cause : Option ErrorObject)
      (response : Option HttpDetails)

def ErrorObject.name : ErrorObject → Option JStr
  | .mk n _ _ _ _ _ => n

def ErrorObject.message : ErrorObject → JStr
  | .mk _ m _ _ _ _ => m

def ErrorObject.stack : ErrorObject → Option JStr
  | .mk _ _ st _ _ _ => st

def ErrorObject.code : ErrorObject → Option Code
  | .mk _ _ _ c _ _ => c

def ErrorObject.cause : ErrorObject → Option ErrorObject
  | .mk _ _ _ _ c _ => c

def ErrorObject.response : ErrorObject → Option HttpDetails
  | .mk _ _ _ _ _ r => r

/-- Sentinel node substituted once the cause-chain depth limit is exceeded
(serializeCause, first branch). -/
def depthLimitNode : ErrorObject :=
  .mk (some (jstr "DepthLimitError")) (jstr "[Max Cause Depth Reached]")
    none none none none

/-- Model of `serializeCause` from error-serialization.ts.  The recursion is on
the structure of the cause value; the depth guard is the first check, exactly
as in the source. -/
def serializeCause (cause : Value) (maxDepth : Nat) (currentDepth : Nat)
    (limits : SerializationLimits) : ErrorObject :=
  if maxDepth < currentDepth then
    depthLimitNode
  else
    match cause with
    | .nonError s => .mk (some (jstr "UnknownCause")) s none none none none
    | .errLike name msg stack code _resp c =>
        .mk name
          (if msg.isEmpty then jstr "Unknown cause" else msg)
          (stack.map fun st => truncateString st limits.stackLimit)
          code
          (match c with
           | none => none
           | some c2 => some (serializeCause c2 maxDepth (currentDepth + 1) limits))
          none

/-- Model of `serializeError` from error-serialization.ts. -/
def serializeError (error : Value)
    (limits : SerializationLimits := DEFAULT_LIMITS) : ErrorObject :=
  match error with
  | .nonError s => .mk (some (jstr "UnknownError")) s none none none none
  | .errLike name msg stack code resp c =>
      .mk name
        (if msg.isEmpty then jstr "Unknown error" else msg)
        (stack.map fun st => truncateString st limits.stackLimit)
        code
        (match c with
         | none => none
         | some c2 => some (serializeCause c2 limits.causeMaxDepth 1 limits))
        (resp.map fun r =>
          ⟨r.status, r.statusText,
           r.data.map fun d => stringifyAndTruncate d limits.responseDataLimit⟩)

/-- Length of the cause chain hanging off a node (number of cause links,
the node itself not counted). -/
def chainLen : ErrorObject → Nat
  | .mk _ _ _ _ none _ => 0
  | .mk _ _ _ _ (some c) _ => 1 + chainLen c

/-- Node at depth `n` along the cause chain (`nthCause o 0 = o`). -/
def nthCause : ErrorObject → Nat → Option ErrorObject
  | o, 0 => some o
  | .mk _ _ _ _ none _, _ + 1 => none
  | .mk _ _ _ _ (some c) _, n + 1 => nthCause c n

/-- Length of the declared causal chain of the input: the number of nested
truthy `cause` links through error-like values. -/
def errChainDepth : Value → Nat
  | .nonError _ => 0
  | .errLike _ _ _ _ _ none => 0
  | .errLike _ _ _ _ _ (some c) => 1 + errChainDepth c

theorem serializeCause_depth_exceeded (v : Value) (maxD d : Nat)
    (limits : SerializationLimits) (hd : maxD < d) :
    serializeCause v maxD d limits = depthLimitNode := by
  unfold serializeCause
  rw [if_pos hd]

theorem chainLen_serializeCause_le (limits : SerializationLimits) (maxD : Nat) :
    ∀ (k d : Nat) (v : Value), maxD + 1 - d ≤ k →
      chainLen (serializeCause v maxD d limits) ≤ maxD + 1 - d := by
  intro k
  induction k with
  | zero =>
      intro d v hk
      have hd : maxD < d := by omega
      rw [serializeCause_depth_exceeded v maxD d limits hd]
      simp [depthLimitNode, chainLen]
  | succ k ih =>
      intro d v hk
      by_cases hd : maxD < d
      · rw [serializeCause_depth_exceeded v maxD d limits hd]
        simp [depthLimitNode, chainLen]
      · unfold serializeCause
        rw [if_neg hd]
        cases v with
        | nonError s => simp [chainLen]
        | errLike name msg stack code resp c =>
            cases c with
            | none => simp [chainLen]
            | some c2 =>
                simp only [chainLen]
                have := ih (d + 1) c2 (by omega)
                omega

theorem chainLen_serializeError_le (v : Value) (limits : SerializationLimits) :
    chainLen (serializeError v limits) ≤ limits.causeMaxDepth + 1 := by
  cases v with
  | nonError s => simp [serializeError, chainLen]
  | errLike name msg stack code resp c =>
      cases c with
      | none => simp [serializeError, chainLen]
      | some c2 =>
          simp only [serializeError, chainLen]
          have := chainLen_serializeCause_le limits limits.causeMaxDepth
            limits.causeMaxDepth 1 c2 (by omega)
          omega

theorem nthCause_serializeCause_sentinel (limits : SerializationLimits) (maxD : Nat) :
    ∀ (k d : Nat) (v : Value), maxD + 1 - d ≤ k → 1 ≤ d →
      maxD + 1 - d ≤ errChainDepth v →
      nthCause (serializeCause v maxD d limits) (maxD + 1 - d) = some depthLimitNode := by
  intro k
  induction k with
  | zero =>
      intro d v hk _ _
      have hd : maxD < d := by omega
      have hp : maxD + 1 - d = 0 := by omega
      rw [serializeCause_depth_exceeded v maxD d limits hd, hp]
      rfl
  | succ k ih =>
      intro d v hk hd1 hv
      by_cases hd : maxD < d
      · have hp : maxD + 1 - d = 0 := by omega
        rw [serializeCause_depth_exceeded v maxD d limits hd, hp]
        rfl
      · have hp : 1 ≤ maxD + 1 - d := by omega
        cases v with
        | nonError s => simp [errChainDepth] at hv; omega
        | errLike name msg stack code resp c =>
            cases c with
            | none => simp [errChainDepth] at hv; omega
            | some c2 =>
                simp only [errChainDepth] at hv
                unfold serializeCause
                rw [if_neg hd]
                have hrw : maxD + 1 - d = (maxD - d) + 1 := by omega
                rw [hrw]
                simp only [nthCause]
                have := ih (d + 1) c2 (by omega) (by omega) (by omega)
                have hrw2 : maxD + 1 - (d + 1) = maxD - d := by omega
                rw [hrw2] at this
                exact this

theorem nthCause_serializeError_sentinel (v : Value) (limits : SerializationLimits)
    (hdeep : limits.causeMaxDepth + 1 ≤ errChainDepth v) :
    nthCause (serializeError v limits) (limits.causeMaxDepth + 1) = some depthLimitNode := by
  cases v with
  | nonError s => simp [errChainDepth] at hdeep
  | errLike name msg stack code resp c =>
      cases c with
      | none => simp [errChainDepth] at hdeep
      | some c2 =>
          simp only [errChainDepth] at hdeep
          simp only [serializeError, nthCause]
          have := nthCause_serializeCause_sentinel limits limits.causeMaxDepth
            limits.causeMaxDepth 1 c2 (by omega) (by omega) (by omega)
          have hrw : limits.causeMaxDepth + 1 - 1 = limits.causeMaxDepth := by omega
          rw [hrw] at this
          exact this

/-- Association-list lookup, used for the per-endpoint state map and the
per-endpoint request counters. -/
def lookupA {α : Type} (k : String) : List (String × α) → Option α
  | [] => none
  | (k2, v) :: rest => if k = k2 then some v else lookupA k rest

/-- Association-list update (replace in place, append when absent). -/
def insertA {α : Type} (k : String) (v : α) : List (String × α) → List (String × α)
  | [] => [(k, v)]
  | (k2, v2) :: rest => if k = k2 then (k, v) :: rest else (k2, v2) :: insertA k v rest

theorem lookupA_insertA_self {α : Type} (k : String) (v : α) :
    ∀ l : List (String × α), lookupA k (insertA k v l) = some v := by
  intro l
  induction l with
  | nil => simp [lookupA, insertA]
  | cons p rest ih =>
      obtain ⟨k2, v2⟩ := p
      by_cases h : k = k2
      · simp [lookupA, insertA, h]
      · simp [lookupA, insertA, h, ih]

theorem lookupA_insertA_ne {α : Type} (k k2 : String) (v : α) (hne : k ≠ k2) :
    ∀ l : List (String × α), lookupA k (insertA k2 v l) = lookupA k l := by
  intro l
  induction l with
  | nil => simp [lookupA, insertA, hne]
  | cons p rest ih =>
      obtain ⟨k3, v3⟩ := p
      by_cases h : k2 = k3
      · subst h
        simp [lookupA, insertA, hne]
      · by_cases h2 : k = k3 <;> simp [lookupA, insertA, h, h2, ih]

theorem insertA_insertA_self {α : Type} (k : String) (v1 v2 : α) :
    ∀ l : List (String × α), insertA k v2 (insertA k v1 l) = insertA k v2 l := by
  intro l
  induction l with
  | nil => simp [insertA]
  | cons p rest ih =>
      obtain ⟨k2, v3⟩ := p
      by_cases h : k = k2 <;> simp [insertA, h, ih]

/-- Per-endpoint rate-limit state (discord-rate-limiter.ts). -/
structure RateLimitState where
  remaining : Int
  resetAt : Int
  isLimited : Bool
  retryAfter : Int
deriving DecidableEq

/-- The state map of a `DiscordRateLimiter` instance, keyed by webhook URL. -/
abbrev RL := List (String × RateLimitState)

/-- Default window size (`defaultLimit = 30` requests per minute). -/
def defaultLimit : Int := 30

/-- Model of `DiscordRateLimiter.isRateLimited`.  Returns the boolean result
together with the state map after the lazy-expiry mutation; the mutation
happens only when the stored state is flagged limited and the reset time has
passed, exactly as in the source. -/
def isRateLimited (m : RL) (webhookUrl : String) (now : Int) : Bool × RL :=
  match lookupA webhookUrl m with
  | none => (false, m)
  | some state =>
      if state.isLimited ∧ state.resetAt ≤ now then
        let state2 : RateLimitState :=
          { state with isLimited := false, remaining := defaultLimit }
        (state2.isLimited || decide (state2.remaining ≤ 0),
         insertA webhookUrl state2 m)
      else
        (state.isLimited || decide (state.remaining ≤ 0), m)

/-- Model of `DiscordRateLimiter.getWaitTime` (read-only). -/
def getWaitTime (m : RL) (webhookUrl : String) (now : Int) : Int :=
  match lookupA webhookUrl m with
  | none => 0
  | some state =>
      if state.isLimited then max 0 (state.resetAt - now)
      else if state.remaining ≤ 0 then max 0 (state.resetAt - now)
      else 0

/-- Parsed rate-limit response headers consumed by `recordSuccess`:
`none` models an absent (or falsy) header, `some n` a header parsing to `n`. -/
structure SuccessHeaders where
  remaining : Option Int
  resetAfter : Option Int
deriving DecidableEq

/-- Model of `DiscordRateLimiter.recordSuccess`. -/
def recordSuccess (m : RL) (webhookUrl : String) (headers : SuccessHeaders)
    (now : Int) : RL :=
  let remaining := headers.remaining.getD (defaultLimit - 1)
  let resetAfter := headers.resetAfter.getD 2
  insertA webhookUrl
    { remaining := remaining, resetAt := now + resetAfter * 1000,
      isLimited := false, retryAfter := 0 } m

/-- Model of `DiscordRateLimiter.recordRateLimit`. -/
def recordRateLimit (m : RL) (webhookUrl : String) (retryAfter : Int)
    (now : Int) : RL :=
  insertA webhookUrl
    { remaining := 0, resetAt := now + retryAfter * 1000,
      isLimited := true, retryAfter := retryAfter } m

/-- Value of a header as seen after `parseFloat`: either a number or NaN. -/
inductive HeaderNum where
  | nan
  | val (n : Int)
deriving DecidableEq

/-- Error response attached to a failed HTTP attempt (axios error with a
response).  `retryAfterHeader` follows the truthiness convention (`none` is an
absent or empty header); `bodyRetryAfter` models a `retry_after` field of the
response body that exists and has number type. -/
structure HttpFailureResponse where
  status : Nat
  retryAfterHeader : Option HeaderNum
  bodyRetryAfter : Option Int
deriving DecidableEq

/-- Outcome of one HTTP POST attempt. -/
inductive HttpOutcome where
  | success (headers : SuccessHeaders)
  | httpError (resp : HttpFailureResponse)
  | networkError
deriving DecidableEq

/-- The external world threaded through a dispatch: the response oracle (the
outcome of the n-th request to each URL), the per-URL request counters, the
clock, and the log of sleep durations (rate-limit waits, retry-after waits and
backoff delays), in order. -/
structure World where
  oracle : String → Nat → HttpOutcome
  counts : List (String × Nat)
  now : Int
  sleeps : List Int

/-- Issue one HTTP POST to `url` and consume the next oracle outcome. -/
def World.request (w : World) (url : String) : HttpOutcome × World :=
  let c := (lookupA url w.counts).getD 0
  (w.oracle url c, { w with counts := insertA url (c + 1) w.counts })

/-- Model of `sleep(ms)`: advance the clock and record the duration. -/
def World.sleep (w : World) (ms : Int) : World :=
  { w with now := w.now + ms, sleeps := w.sleeps ++ [ms] }

/-- Transport configuration after constructor defaulting
(DiscordWebhookTransport fields). -/
structure TransportCfg where
  webhookUrls : List String
  maxRetries : Nat
  retryDelay : Int
  maxMessageLength : Nat

/-- Constructor options (`DiscordTransportOptions`).  `webhookUrls` uses `||`
in the source, the numeric fields use `??`; `none` models an absent (for
`webhookUrls`, absent-or-falsy) value. -/
structure DiscordTransportOptions where
  webhookUrls : Option (List String)
  maxRetries : Option Nat
  retryDelay : Option Int
  maxMessageLength : Option Nat

/-- Model of the `DiscordWebhookTransport` constructor defaulting. -/
def mkTransport (opts : DiscordTransportOptions) : TransportCfg :=
  { webhookUrls := opts.webhookUrls.getD []
    maxRetries := opts.maxRetries.getD 3
    retryDelay := opts.retryDelay.getD 1000
    maxMessageLength := opts.maxMessageLength.getD 2000 }

/-- Log entry fields consumed by the transport (src/types `LogEntry`).
Optional fields follow the truthiness convention. -/
structure LogEntry where
  level : JStr
  origin : JStr
  identifier : JStr
  message : JStr
  errorID : Option JStr
  sessionID : Option JStr
  comment : Option JStr
  error : Option ErrorObject
  sendDiscordWebhook : Bool

/-- Model of `DiscordWebhookTransport.getRetryAfter`: the `retry-after`
response header when present and parsing to a number, else the numeric
`retry_after` field of the response body when present and truthy, else 2
seconds. -/
def getRetryAfter (resp : HttpFailureResponse) : Int :=
  match resp.retryAfterHeader with
  | some (.val n) => n
  | _ =>
      match resp.bodyRetryAfter with
      | some n => if n = 0 then 2 else n
      | none => 2

/-- Model of `Array.prototype.join` on the parts array. -/
def joinParts (sep : JStr) : List JStr → JStr
  | [] => []
  | [p] => p
  | p :: q :: rest => p ++ sep ++ joinParts sep (q :: rest)

/-- Header line of a formatted alert (formatMessage, first pushed part). -/
def messageHeader (info : LogEntry) : JStr :=
  jstr "**[" ++ info.level.map Char.toUpper ++ jstr "]** "
    ++ info.origin ++ jstr " > " ++ info.identifier

/-- Model of `DiscordWebhookTransport.formatMessage`: assemble the parts array
in source order and truncate the joined string to `maxMessageLength`. -/
def formatMessage (cfg : TransportCfg) (info : LogEntry) : JStr :=
  let header := messageHeader info
  let ids : List JStr :=
    (match info.errorID with
     | some e => [jstr "errorID: " ++ e]
     | none => []) ++
    (match info.sessionID with
     | some s => [jstr "sessionID: " ++ s]
     | none => [])
  let errorParts : List JStr :=
    match info.error with
    | none => []
    | some e =>
        [jstr "🚨 **" ++ (e.name.getD (jstr "Error")) ++ jstr "**: " ++ e.message]
        ++ (match e.code with
            | some c =>
                if c.truthy then
                  [jstr "Code: " ++ (match c with
                    | .str s => s
                    | .num n => jstr (toString n))]
                else []
            | none => [])
        ++ (match e.stack with
            | some st => [jstr "```\n" ++ truncateString st 500 ++ jstr "\n```"]
            | none => [])
  let parts : List JStr :=
    [header, info.message]
    ++ (if ids = [] then [] else [joinParts (jstr " | ") ids])
    ++ (match info.comment with
        | some c => [jstr "💬 " ++ c]
        | none => [])
    ++ (match info.error with
        | none => []
        | some _ => [joinParts (jstr "\n") errorParts])
  truncateString (joinParts (jstr "\n\n") parts) cfg.maxMessageLength

/-- Model of `DiscordWebhookTransport.sendToWebhook`: the retry loop
`for (attempt = 0; attempt < maxRetries; attempt++)`, with `fuel` the number
of remaining loop iterations (`maxRetries - attempt`).  Each iteration first
consults the rate limiter (waiting when limited), then issues the POST; a 2xx
records success and returns true, a 429 records the retry-after penalty,
sleeps for it and retries, another 4xx aborts the endpoint, and anything else
(5xx, network/timeout) sleeps the exponential backoff and retries. -/
def sendToWebhookAux (cfg : TransportCfg) (webhookUrl : String) (message : JStr) :
    Nat → Nat → RL → World → Bool × RL × World
  | _, 0, rl, w => (false, rl, w)
  | attempt, fuel + 1, rl, w =>
      let p := isRateLimited rl webhookUrl w.now
      let rl1 := p.2
      let w1 :=
        if p.1 then
          let waitTime := getWaitTime rl1 webhookUrl w.now
          if 0 < waitTime then w.sleep waitTime else w
        else w
      let q := w1.request webhookUrl
      let w2 := q.2
      match q.1 with
      | .success headers =>
          (true, recordSuccess rl1 webhookUrl headers w2.now, w2)
      | .httpError resp =>
          if resp.status = 429 then
            let retryAfter := getRetryAfter resp
            let rl2 := recordRateLimit rl1 webhookUrl retryAfter w2.now
            let w3 := w2.sleep (retryAfter * 1000)
            sendToWebhookAux cfg webhookUrl message (attempt + 1) fuel rl2 w3
          else if 400 ≤ resp.status ∧ resp.status < 500 then
            (false, rl1, w2)
          else
            let w3 := w2.sleep (cfg.retryDelay * 2 ^ attempt)
            sendToWebhookAux cfg webhookUrl message (attempt + 1) fuel rl1 w3
      | .networkError =>
          let w3 := w2.sleep (cfg.retryDelay * 2 ^ attempt)
          sendToWebhookAux cfg webhookUrl message (attempt + 1) fuel rl1 w3

/-- Entry point of the per-endpoint retry loop. -/
def sendToWebhook (cfg : TransportCfg) (webhookUrl : String) (message : JStr)
    (rl : RL) (w : World) : Bool × RL × World :=
  sendToWebhookAux cfg webhookUrl message 0 cfg.maxRetries rl w

/-- Model of the failover loop of `DiscordWebhookTransport.sendToDiscord`:
try each webhook URL in sequence, stop at the first success, and reject with
the fixed error once the list is exhausted. -/
def sendToDiscordAux (cfg : TransportCfg) (message : JStr) :
    List String → RL → World → Except JStr Unit × RL × World
  | [], rl, w => (.error (jstr "All Discord webhook URLs failed"), rl, w)
  | url :: rest, rl, w =>
      let r := sendToWebhook cfg url message rl w
      if r.1 then (.ok (), r.2.1, r.2.2)
      else sendToDiscordAux cfg message rest r.2.1 r.2.2

/-- Model of `DiscordWebhookTransport.sendToDiscord`. -/
def sendToDiscord (cfg : TransportCfg) (info : LogEntry) (rl : RL) (w : World) :
    Except JStr Unit × RL × World :=
  let message := formatMessage cfg info
  sendToDiscordAux cfg message cfg.webhookUrls rl w

/-- Observable result of one `log` call: whether the Winston completion
callback ran, the payload of an internal `error` event when one was emitted,
and the rate-limiter state and world after the dispatch settled. -/
structure LogResult where
  calledBack : Bool
  emittedError : Option JStr
  rl : RL
  world : World

/-- Model of `DiscordWebhookTransport.log`: entries without the
`sendDiscordWebhook` flag are a no-op apart from the callback; flagged entries
run `sendToDiscord`, whose rejection is caught and re-emitted as an internal
`error` event and never thrown to the caller.  The callback runs on every
path. -/
def log (cfg : TransportCfg) (info : LogEntry) (rl : RL) (w : World) : LogResult :=
  if info.sendDiscordWebhook then
    match sendToDiscord cfg info rl w with
    | (.ok _, rl2, w2) => ⟨true, none, rl2, w2⟩
    | (.error e, rl2, w2) => ⟨true, some (jstr "Discord transport error: " ++ e), rl2, w2⟩
  else ⟨true, none, rl, w⟩

theorem joinParts_cons (sep x : JStr) (xs : List JStr) :
    ∃ t, joinParts sep (x :: xs) = x ++ t := by
  cases xs with
  | nil => exact ⟨[], by simp [joinParts]⟩
  | cons y ys => exact ⟨sep ++ joinParts sep (y :: ys), by simp [joinParts]⟩

theorem truncateString_append_of_le (h t : JStr) (limit : Nat)
    (hle : h.length + 3 ≤ limit) :
    ∃ r, truncateString (h ++ t) limit = h ++ r := by
  by_cases hc : (h ++ t : JStr) = [] ∨ (h ++ t).length ≤ limit
  · refine ⟨t, ?_⟩
    unfold truncateString
    rw [if_pos hc]
  · push_neg at hc
    have hlt : limit < (h ++ t).length := by omega
    rw [truncateString_eq_take_append hlt]
    refine ⟨t.take (limit - 3 - h.length) ++ jstr "...", ?_⟩
    rw [List.take_append_eq_append_take, List.take_of_length_le (by omega),
      List.append_assoc]

theorem formatMessage_shape (cfg : TransportCfg) (info : LogEntry) :
    ∃ R, formatMessage cfg info =
      truncateString (joinParts (jstr "\n\n") (messageHeader info :: info.message :: R))
        cfg.maxMessageLength :=
  ⟨_, rfl⟩

theorem formatMessage_length_le (cfg : TransportCfg) (info : LogEntry)
    (h3 : 3 ≤ cfg.maxMessageLength) :
    (formatMessage cfg info).length ≤ cfg.maxMessageLength := by
  obtain ⟨R, hR⟩ := formatMessage_shape cfg info
  rw [hR]
  set full := joinParts (jstr "\n\n") (messageHeader info :: info.message :: R) with hfull
  by_cases hc : full.length ≤ cfg.maxMessageLength
  · rw [truncateString_of_le hc]; exact hc
  · exact le_of_eq (truncateString_length_of_lt h3 (by omega))

theorem formatMessage_header_survives (cfg : TransportCfg) (info : LogEntry)
    (hle : (messageHeader info).length + 3 ≤ cfg.maxMessageLength) :
    ∃ r, formatMessage cfg info = messageHeader info ++ r := by
  obtain ⟨R, hR⟩ := formatMessage_shape cfg info
  obtain ⟨t, ht⟩ := joinParts_cons (jstr "\n\n") (messageHeader info) (info.message :: R)
  rw [hR, ht]
  exact truncateString_append_of_le _ _ _ hle

/-- Chain of error-like values of the given cause depth, used to instantiate
the depth-limit theorem. -/
def deepErr : Nat → Value
  | 0 => .errLike (some (jstr "E")) (jstr "boom") none none none none
  | n + 1 => .errLike (some (jstr "E")) (jstr "boom") none none none (some (deepErr n))

/-- C1: for every input value and limits configuration, `serializeError`
returns a tree whose cause chain has length at most `causeMaxDepth + 1`
counting the sentinel; when the input causal chain would exceed the limit, the
node at depth `causeMaxDepth + 1` is the fixed sentinel node
(name DepthLimitError, fixed depth-limit message); and past the limit
`serializeCause` returns that sentinel without inspecting the oversized
subtree at all (its result there is the same constant for every value). -/
theorem claim_C1_cause_depth_bound :
    (∀ (v : Value) (limits : SerializationLimits),
        chainLen (serializeError v limits) ≤ limits.causeMaxDepth + 1) ∧
    (∀ (v : Value) (limits : SerializationLimits),
        limits.causeMaxDepth + 1 ≤ errChainDepth v →
        nthCause (serializeError v limits) (limits.causeMaxDepth + 1) =
          some depthLimitNode) ∧
    (∀ (v : Value) (maxD d : Nat) (limits : SerializationLimits), maxD < d →
        serializeCause v maxD d limits = depthLimitNode) :=
  ⟨chainLen_serializeError_le, nthCause_serializeError_sentinel,
   serializeCause_depth_exceeded⟩

/-- Witness for C1 at a depth-5 causal chain against the default limit 3. -/
theorem claim_C1_cause_depth_bound_witness :
    (DEFAULT_LIMITS.causeMaxDepth + 1 ≤ errChainDepth (deepErr 5) ∧
     nthCause (serializeError (deepErr 5) DEFAULT_LIMITS)
       (DEFAULT_LIMITS.causeMaxDepth + 1) = some depthLimitNode) ∧
    (3 < 4 ∧ serializeCause (.nonError (jstr "x")) 3 4 DEFAULT_LIMITS = depthLimitNode) ∧
    chainLen (serializeError (deepErr 5) DEFAULT_LIMITS) ≤ DEFAULT_LIMITS.causeMaxDepth + 1 :=
  ⟨⟨by decide,
    claim_C1_cause_depth_bound.2.1 (deepErr 5) DEFAULT_LIMITS (by decide)⟩,
   ⟨by decide,
    claim_C1_cause_depth_bound.2.2 (.nonError (jstr "x")) 3 4 DEFAULT_LIMITS (by decide)⟩,
   claim_C1_cause_depth_bound.1 (deepErr 5) DEFAULT_LIMITS⟩

/-- C3 counterexample: at limit 2 (below the marker length 3) a longer string
is truncated to the 3-character marker, not to exactly 2 characters, so the
claim as stated fails for small limits. -/
theorem claim_C3_counterexample :
    2 < (jstr "abcd").length ∧ (truncateString (jstr "abcd") 2).length ≠ 2 := by
  decide

/-- C3 (amended): for every limit of at least the marker length 3 and every
string strictly longer than it, `truncateString` returns exactly `limit`
characters, namely a prefix of the input followed by the marker; truncation is
idempotent at every limit; and the formatted alert message is truncated to
`maxMessageLength` (when that is at least 3) with the header prefix surviving
whenever the header and marker fit. -/
theorem claim_C3_truncation_contract :
    (∀ (s : JStr) (limit : Nat), 3 ≤ limit → limit < s.length →
        (truncateString s limit).length = limit ∧
        truncateString s limit = s.take (limit - 3) ++ jstr "...") ∧
    (∀ (s : JStr) (limit : Nat),
        truncateString (truncateString s limit) limit = truncateString s limit) ∧
    (∀ (cfg : TransportCfg) (info : LogEntry), 3 ≤ cfg.maxMessageLength →
        (formatMessage cfg info).length ≤ cfg.maxMessageLength) ∧
    (∀ (cfg : TransportCfg) (info : LogEntry),
        (messageHeader info).length + 3 ≤ cfg.maxMessageLength →
        ∃ r, formatMessage cfg info = messageHeader info ++ r) :=
  ⟨fun _s _limit h3 hlt =>
      ⟨truncateString_length_of_lt h3 hlt, truncateString_eq_take_append hlt⟩,
   truncateString_idem,
   formatMessage_length_le,
   formatMessage_header_survives⟩

/-- Log entry used to instantiate the formatting theorems. -/
def sampleEntry : LogEntry :=
  { level := jstr "error", origin := jstr "api", identifier := jstr "db#42"
    message := jstr "query failed", errorID := some (jstr "eid-1")
    sessionID := none, comment := none
    error := some (.mk (some (jstr "Error")) (jstr "boom") none none none none)
    sendDiscordWebhook := true }

/-- Transport configuration with the constructor defaults. -/
def sampleCfg : TransportCfg :=
  mkTransport ⟨some ["https://a.example", "https://b.example"], none, none, none⟩

/-- Witness for C3 at limit 5 on an 8-character string and at the default
2000-character message limit. -/
theorem claim_C3_truncation_contract_witness :
    (3 ≤ 5 ∧ 5 < (jstr "abcdefgh").length ∧
     (truncateString (jstr "abcdefgh") 5).length = 5 ∧
     truncateString (jstr "abcdefgh") 5 = (jstr "abcdefgh").take (5 - 3) ++ jstr "...") ∧
    ((messageHeader sampleEntry).length + 3 ≤ sampleCfg.maxMessageLength ∧
     ∃ r, formatMessage sampleCfg sampleEntry = messageHeader sampleEntry ++ r) :=
  ⟨⟨by decide, by decide,
    (claim_C3_truncation_contract.1 (jstr "abcdefgh") 5 (by decide) (by decide)).1,
    (claim_C3_truncation_contract.1 (jstr "abcdefgh") 5 (by decide) (by decide)).2⟩,
   ⟨by decide,
    claim_C3_truncation_contract.2.2.2 sampleCfg sampleEntry (by decide)⟩⟩

/-- C2 counterexample: a success response whose `x-ratelimit-remaining` header
is 0 leaves a state with `remaining = 0` and `isLimited = false`; after
`resetAt` (2000 ms) has long passed, `isRateLimited` still returns true, since
the lazy expiry only fires when the stored state is flagged limited. -/
theorem claim_C2_counterexample :
    lookupA "A" (recordSuccess [] "A" ⟨some 0, none⟩ 0) =
      some ⟨0, 2000, false, 0⟩ ∧
    (2000 : Int) ≤ 9999 ∧
    (isRateLimited (recordSuccess [] "A" ⟨some 0, none⟩ 0) "A" 9999).1 = true := by
  decide

/-- C2 (amended): for every endpoint whose stored state is flagged limited
(a 429 penalty), `isRateLimited` returns false as soon as the current time is
at or past `resetAt`, with no intervening `recordSuccess`: the lazy expiry
clears the limited flag and restores `remaining` to the default window size
30, and afterwards the endpoint keeps reporting not limited.  In particular
any state written by `recordRateLimit` expires this way.  (States that are not
flagged limited but have `remaining ≤ 0` keep reporting limited after
`resetAt`; see the counterexample.) -/
theorem claim_C2_lazy_expiry :
    (∀ (m : RL) (url : String) (now : Int) (st : RateLimitState),
        lookupA url m = some st → st.isLimited = true → st.resetAt ≤ now →
        (isRateLimited m url now).1 = false ∧
        lookupA url (isRateLimited m url now).2 =
          some { st with isLimited := false, remaining := defaultLimit } ∧
        (isRateLimited (isRateLimited m url now).2 url now).1 = false) ∧
    (∀ (m : RL) (url : String) (retryAfter now now2 : Int),
        now + retryAfter * 1000 ≤ now2 →
        (isRateLimited (recordRateLimit m url retryAfter now) url now2).1 = false) := by
  constructor
  · intro m url now st hlook hlim hle
    have h1 : isRateLimited m url now =
        (false, insertA url { st with isLimited := false, remaining := defaultLimit } m) := by
      simp only [isRateLimited, hlook]
      rw [if_pos ⟨hlim, hle⟩]
      simp [defaultLimit]
    refine ⟨by rw [h1], ?_, ?_⟩
    · rw [h1]
      exact lookupA_insertA_self url _ m
    · rw [h1]
      simp only [isRateLimited, lookupA_insertA_self]
      rw [if_neg (by simp)]
      simp [defaultLimit]
  · intro m url retryAfter now now2 hle
    simp only [isRateLimited, recordRateLimit, lookupA_insertA_self]
    rw [if_pos ⟨trivial, hle⟩]
    simp [defaultLimit]

/-- Witness for C2: a 800 ms penalty queried at 900 ms, and a recorded
5-second penalty queried at 5000 ms, both report not limited. -/
theorem claim_C2_lazy_expiry_witness :
    ((isRateLimited [("A", ⟨0, 800, true, 1⟩)] "A" 900).1 = false) ∧
    ((0 : Int) + 5 * 1000 ≤ 5000 ∧
     (isRateLimited (recordRateLimit [] "A" 5 0) "A" 5000).1 = false) :=
  ⟨(claim_C2_lazy_expiry.1 [("A", ⟨0, 800, true, 1⟩)] "A" 900 ⟨0, 800, true, 1⟩
      (by decide) rfl (by decide)).1,
   by decide,
   claim_C2_lazy_expiry.2 [] "A" 5 0 5000 (by decide)⟩

/-- C8 counterexample: a causal error with an empty message serializes with
message defaulting to the string Unknown cause, not Unknown error, so the
claim that the Unknown error default applies recursively along the cause
chain fails. -/
theorem claim_C8_counterexample :
    ((serializeError
        (.errLike (some (jstr "E")) (jstr "boom") none none none
          (some (.errLike (some (jstr "F")) [] none none none none)))
        DEFAULT_LIMITS).cause.map ErrorObject.message) = some (jstr "Unknown cause") ∧
    jstr "Unknown cause" ≠ jstr "Unknown error" := by
  constructor
  · rfl
  · decide

/-- C8 (amended): a non-error-like input serializes to a single node with name
UnknownError, message equal to the string form of the input, and no stack,
cause, code or httpDetails; an error-like input with an empty message gets the
Unknown error default at the top level only, while nodes produced along the
cause chain default to Unknown cause, and a non-error-like cause yields a leaf
named UnknownCause. -/
theorem claim_C8_unknown_inputs :
    (∀ (s : JStr) (limits : SerializationLimits),
        serializeError (.nonError s) limits =
          .mk (some (jstr "UnknownError")) s none none none none) ∧
    (∀ (name stack : Option JStr) (code : Option Code) (resp : Option HttpResp)
        (cause : Option Value) (limits : SerializationLimits),
        (serializeError (.errLike name [] stack code resp cause) limits).message =
          jstr "Unknown error") ∧
    (∀ (name stack : Option JStr) (code : Option Code) (resp : Option HttpResp)
        (cause : Option Value) (limits : SerializationLimits) (maxD d : Nat),
        d ≤ maxD →
        (serializeCause (.errLike name [] stack code resp cause) maxD d limits).message =
          jstr "Unknown cause") ∧
    (∀ (s : JStr) (limits : SerializationLimits) (maxD d : Nat), d ≤ maxD →
        serializeCause (.nonError s) maxD d limits =
          .mk (some (jstr "UnknownCause")) s none none none none) := by
  refine ⟨fun s limits => rfl, fun name stack code resp cause limits => ?_, ?_, ?_⟩
  · cases cause <;> simp [serializeError, ErrorObject.message]
  · intro name stack code resp cause limits maxD d hd
    unfold serializeCause
    rw [if_neg (by omega)]
    cases cause <;> simp [ErrorObject.message]
  · intro s limits maxD d hd
    unfold serializeCause
    rw [if_neg (by omega)]

/-- Witness for C8 at concrete causal inputs and depth 1 and 2 against the
default limits. -/
theorem claim_C8_unknown_inputs_witness :
    (1 ≤ 3 ∧
     (serializeCause (.errLike (some (jstr "F")) [] none none none none)
        3 1 DEFAULT_LIMITS).message = jstr "Unknown cause") ∧
    (2 ≤ 3 ∧
     serializeCause (.nonError (jstr "42")) 3 2 DEFAULT_LIMITS =
       .mk (some (jstr "UnknownCause")) (jstr "42") none none none none) :=
  ⟨⟨by decide,
    claim_C8_unknown_inputs.2.2.1 (some (jstr "F")) none none none none
      DEFAULT_LIMITS 3 1 (by decide)⟩,
   ⟨by decide,
    claim_C8_unknown_inputs.2.2.2 (jstr "42") DEFAULT_LIMITS 3 2 (by decide)⟩⟩

/-- World with no traffic: every request would fail at the network level. -/
def idleWorld : World := ⟨fun _ _ => .networkError, [], 0, []⟩

/-- C9: an entry whose alert flag is unset is a no-op apart from the
completion callback: no HTTP request is issued (the world, and with it the
per-URL request counters, is returned untouched) and the rate limiter state is
unchanged. -/
theorem claim_C9_flag_gate :
    ∀ (cfg : TransportCfg) (info : LogEntry) (rl : RL) (w : World),
      info.sendDiscordWebhook = false →
      log cfg info rl w = ⟨true, none, rl, w⟩ := by
  intro cfg info rl w hflag
  simp [log, hflag]

/-- Witness for C9 on a concrete unflagged entry. -/
theorem claim_C9_flag_gate_witness :
    ({ sampleEntry with sendDiscordWebhook := false } : LogEntry).sendDiscordWebhook = false ∧
    log sampleCfg { sampleEntry with sendDiscordWebhook := false } [] idleWorld =
      ⟨true, none, [], idleWorld⟩ :=
  ⟨rfl, claim_C9_flag_gate sampleCfg _ [] idleWorld rfl⟩

/-- C10: with an empty webhook URL list, a flagged entry makes zero HTTP
requests (world unchanged) and the dispatch immediately rejects with the fixed
total-failure error, which `log` re-emits as the internal diagnostic event
while still invoking the callback and never throwing. -/
theorem claim_C10_empty_url_list :
    ∀ (opts : DiscordTransportOptions) (info : LogEntry) (rl : RL) (w : World),
      opts.webhookUrls = some [] → info.sendDiscordWebhook = true →
      sendToDiscord (mkTransport opts) info rl w =
        (.error (jstr "All Discord webhook URLs failed"), rl, w) ∧
      log (mkTransport opts) info rl w =
        ⟨true, some (jstr "Discord transport error: All Discord webhook URLs failed"),
         rl, w⟩ := by
  intro opts info rl w hurls hflag
  have hcfg : (mkTransport opts).webhookUrls = [] := by simp [mkTransport, hurls]
  have hsd : sendToDiscord (mkTransport opts) info rl w =
      (.error (jstr "All Discord webhook URLs failed"), rl, w) := by
    unfold sendToDiscord
    rw [hcfg]
    rfl
  refine ⟨hsd, ?_⟩
  have hc : jstr "Discord transport error: " ++ jstr "All Discord webhook URLs failed" =
      jstr "Discord transport error: All Discord webhook URLs failed" := by decide
  unfold log
  rw [if_pos hflag]
  simp only [hsd, hc]

/-- Witness for C10 at a concrete transport built over an empty URL list. -/
theorem claim_C10_empty_url_list_witness :
    (⟨some [], none, none, none⟩ : DiscordTransportOptions).webhookUrls = some [] ∧
    sampleEntry.sendDiscordWebhook = true ∧
    log (mkTransport ⟨some [], none, none, none⟩) sampleEntry [] idleWorld =
      ⟨true, some (jstr "Discord transport error: All Discord webhook URLs failed"),
       [], idleWorld⟩ :=
  ⟨rfl, rfl,
   (claim_C10_empty_url_list ⟨some [], none, none, none⟩ sampleEntry [] idleWorld
      rfl rfl).2⟩

theorem sendToDiscordAux_error_msg (cfg : TransportCfg) (message : JStr) :
    ∀ (urls : List String) (rl : RL) (w : World),
      (sendToDiscordAux cfg message urls rl w).1 = .ok () ∨
      (sendToDiscordAux cfg message urls rl w).1 =
        .error (jstr "All Discord webhook URLs failed") := by
  intro urls
  induction urls with
  | nil => intro rl w; right; rfl
  | cons url rest ih =>
      intro rl w
      unfold sendToDiscordAux
      by_cases h : (sendToWebhook cfg url message rl w).1
      · rw [if_pos h]; left; rfl
      · rw [if_neg h]; exact ih _ _

/-- C7: every `log` call returns normally to the caller, invoking its
completion callback; nothing is ever thrown into the caller.  The internal
diagnostic error event carrying the total-failure message is emitted exactly
when the entry was flagged for alerting and the dispatch pipeline rejected
with the every-endpoint-failed error (so a total delivery failure is always
reported, and only there), and no other event payload is possible. -/
theorem claim_C7_contained_failures :
    ∀ (cfg : TransportCfg) (info : LogEntry) (rl : RL) (w : World),
      (log cfg info rl w).calledBack = true ∧
      ((log cfg info rl w).emittedError =
          some (jstr "Discord transport error: All Discord webhook URLs failed") ↔
        info.sendDiscordWebhook = true ∧
        (sendToDiscord cfg info rl w).1 =
          .error (jstr "All Discord webhook URLs failed")) ∧
      ((log cfg info rl w).emittedError = none ∨
       (log cfg info rl w).emittedError =
         some (jstr "Discord transport error: All Discord webhook URLs failed")) := by
  intro cfg info rl w
  by_cases hflag : info.sendDiscordWebhook
  · have hd := sendToDiscordAux_error_msg cfg (formatMessage cfg info) cfg.webhookUrls rl w
    have hdef : sendToDiscord cfg info rl w =
        sendToDiscordAux cfg (formatMessage cfg info) cfg.webhookUrls rl w := rfl
    rcases hsd : sendToDiscord cfg info rl w with ⟨exc, rl2, w2⟩
    cases exc with
    | ok u =>
        cases u
        have hlog : log cfg info rl w = ⟨true, none, rl2, w2⟩ := by
          unfold log
          rw [if_pos hflag]
          simp only [hsd]
        refine ⟨by rw [hlog], ?_, .inl (by rw [hlog])⟩
        constructor
        · intro h
          rw [hlog] at h
          simp at h
        · rintro ⟨-, h⟩
          simp at h
    | error e =>
        have he : e = jstr "All Discord webhook URLs failed" := by
          rcases hd with h | h
          · rw [← hdef, hsd] at h
            exact absurd h (by simp)
          · rw [← hdef, hsd] at h
            simpa using h
        subst he
        have hc : jstr "Discord transport error: " ++
            jstr "All Discord webhook URLs failed" =
            jstr "Discord transport error: All Discord webhook URLs failed" := by decide
        have hlog : log cfg info rl w =
            ⟨true, some (jstr "Discord transport error: All Discord webhook URLs failed"),
             rl2, w2⟩ := by
          unfold log
          rw [if_pos hflag]
          simp only [hsd, hc]
        refine ⟨by rw [hlog], ?_, .inr (by rw [hlog])⟩
        constructor
        · intro _
          exact ⟨hflag, rfl⟩
        · intro _
          rw [hlog]
  · have hlog : log cfg info rl w = ⟨true, none, rl, w⟩ := by
      unfold log
      rw [if_neg hflag]
    refine ⟨by rw [hlog], ?_, .inl (by rw [hlog])⟩
    constructor
    · intro h
      rw [hlog] at h
      simp at h
    · rintro ⟨h, -⟩
      exact absurd h hflag

/-- Witness for C7: with an empty endpoint list and a flagged entry the
dispatch rejects and `log` emits exactly the diagnostic event while still
invoking the callback. -/
theorem claim_C7_contained_failures_witness :
    sampleEntry.sendDiscordWebhook = true ∧
    (sendToDiscord (mkTransport ⟨some [], none, none, none⟩) sampleEntry [] idleWorld).1 =
      .error (jstr "All Discord webhook URLs failed") ∧
    (log (mkTransport ⟨some [], none, none, none⟩) sampleEntry [] idleWorld).calledBack =
      true ∧
    (log (mkTransport ⟨some [], none, none, none⟩) sampleEntry [] idleWorld).emittedError =
      some (jstr "Discord transport error: All Discord webhook URLs failed") :=
  ⟨rfl, rfl,
   (claim_C7_contained_failures (mkTransport ⟨some [], none, none, none⟩)
      sampleEntry [] idleWorld).1,
   (claim_C7_contained_failures (mkTransport ⟨some [], none, none, none⟩)
      sampleEntry [] idleWorld).2.1.mpr ⟨rfl, rfl⟩⟩

/-- Endpoint that answers 429 with a Retry-After of 1 second on the first
request and 200 on every later request. -/
def oracle429 : String → Nat → HttpOutcome :=
  fun _ n => if n = 0 then .httpError ⟨429, some (.val 1), none⟩ else .success ⟨none, none⟩

/-- World in front of the `oracle429` endpoint. -/
def world429 : World := ⟨oracle429, [], 0, []⟩

/-- Transport configured with a single endpoint and the constructor defaults
(3 retries, 1000 ms base delay, 2000 character limit). -/
def cfg429 : TransportCfg := ⟨["A"], 3, 1000, 2000⟩

/-- C4: the retry delay of a 429 is taken from the Retry-After header when it
parses to a number, else from the numeric retry_after field of the body, else
defaults to 2 seconds; against an endpoint answering 429 with Retry-After 1
and then 200, the send succeeds after exactly two requests having slept
exactly 1000 ms, with the penalty recorded in the rate limiter; and with an
attempt budget of 1 the same 429 consumes the only slot like any other
failure, leaving the recorded penalty behind. -/
theorem claim_C4_retry_after_handling :
    (∀ (n : Int) (b : Option Int), getRetryAfter ⟨429, some (.val n), b⟩ = n) ∧
    getRetryAfter ⟨429, some .nan, some 5⟩ = 5 ∧
    getRetryAfter ⟨429, none, some 5⟩ = 5 ∧
    getRetryAfter ⟨429, none, none⟩ = 2 ∧
    ((sendToWebhook cfg429 "A" (jstr "m") [] world429).1 = true ∧
     lookupA "A" (sendToWebhook cfg429 "A" (jstr "m") [] world429).2.2.counts = some 2 ∧
     (sendToWebhook cfg429 "A" (jstr "m") [] world429).2.2.sleeps = [1000]) ∧
    ((sendToWebhook { cfg429 with maxRetries := 1 } "A" (jstr "m") [] world429).1 = false ∧
     lookupA "A" (sendToWebhook { cfg429 with maxRetries := 1 } "A" (jstr "m")
       [] world429).2.2.counts = some 1 ∧
     (sendToWebhook { cfg429 with maxRetries := 1 } "A" (jstr "m")
       [] world429).2.2.sleeps = [1000] ∧
     lookupA "A" (sendToWebhook { cfg429 with maxRetries := 1 } "A" (jstr "m")
       [] world429).2.1 = some ⟨0, 1000, true, 1⟩) := by
  refine ⟨fun n b => rfl, rfl, rfl, rfl, ⟨?_, ?_, ?_⟩, ⟨?_, ?_, ?_, ?_⟩⟩ <;> decide

/-- One-step success: with an attempt budget of at least one, an endpoint that
is not tracked by the rate limiter and answers 2xx on the next request
succeeds on the first attempt, recording the success. -/
theorem sendToWebhook_first_success (cfg : TransportCfg) (url : String)
    (message : JStr) (w : World) (headers : SuccessHeaders)
    (hpos : 1 ≤ cfg.maxRetries)
    (horacle : w.oracle url ((lookupA url w.counts).getD 0) = .success headers) :
    sendToWebhook cfg url message [] w =
      (true, recordSuccess [] url headers w.now,
       { w with counts := insertA url ((lookupA url w.counts).getD 0 + 1) w.counts }) := by
  obtain ⟨k, hk⟩ : ∃ k, cfg.maxRetries = k + 1 := ⟨cfg.maxRetries - 1, by omega⟩
  unfold sendToWebhook
  rw [hk]
  simp only [sendToWebhookAux, isRateLimited, lookupA, Bool.false_eq_true, if_false,
      World.request, horacle]

/-- C6: a 4xx response other than 429 on the first attempt aborts the endpoint
after exactly that one request: no retry, no backoff sleep, no rate-limiter
record; with that endpoint as the only entry of the list, the whole dispatch
fails. -/
theorem claim_C6_client_error_abort :
    ∀ (cfg : TransportCfg) (url : String) (message : JStr) (w : World)
      (status : Nat) (hra : Option HeaderNum) (bra : Option Int),
      1 ≤ cfg.maxRetries →
      400 ≤ status → status < 500 → status ≠ 429 →
      w.oracle url ((lookupA url w.counts).getD 0) = .httpError ⟨status, hra, bra⟩ →
      sendToWebhook cfg url message [] w =
        (false, [],
         { w with counts := insertA url ((lookupA url w.counts).getD 0 + 1) w.counts }) ∧
      sendToDiscordAux cfg message [url] [] w =
        (.error (jstr "All Discord webhook URLs failed"), [],
         { w with counts := insertA url ((lookupA url w.counts).getD 0 + 1) w.counts }) := by
  intro cfg url message w status hra bra hpos h400 h500 h429 horacle
  obtain ⟨k, hk⟩ : ∃ k, cfg.maxRetries = k + 1 := ⟨cfg.maxRetries - 1, by omega⟩
  have h1 : sendToWebhook cfg url message [] w =
      (false, [],
       { w with counts := insertA url ((lookupA url w.counts).getD 0 + 1) w.counts }) := by
    unfold sendToWebhook
    rw [hk]
    simp only [sendToWebhookAux, isRateLimited, lookupA, Bool.false_eq_true, if_false,
      World.request, horacle]
    rw [if_neg h429, if_pos ⟨h400, h500⟩]
  refine ⟨h1, ?_⟩
  simp only [sendToDiscordAux, h1]
  rfl

/-- Endpoint that always answers 400. -/
def world400 : World := ⟨fun _ _ => .httpError ⟨400, none, none⟩, [], 0, []⟩

/-- Witness for C6 against a single endpoint that always returns 400. -/
theorem claim_C6_client_error_abort_witness :
    (1 ≤ cfg429.maxRetries ∧ 400 ≤ 400 ∧ 400 < 500 ∧ 400 ≠ 429 ∧
     world400.oracle "A" ((lookupA "A" world400.counts).getD 0) =
       .httpError ⟨400, none, none⟩) ∧
    sendToWebhook cfg429 "A" (jstr "m") [] world400 =
      (false, [],
       { world400 with
          counts := insertA "A" ((lookupA "A" world400.counts).getD 0 + 1) world400.counts }) ∧
    sendToDiscordAux cfg429 (jstr "m") ["A"] [] world400 =
      (.error (jstr "All Discord webhook URLs failed"), [],
       { world400 with
          counts := insertA "A" ((lookupA "A" world400.counts).getD 0 + 1) world400.counts }) :=
  ⟨⟨by decide, by decide, by decide, by decide, rfl⟩,
   (claim_C6_client_error_abort cfg429 "A" (jstr "m") world400 400 none none
      (by decide) (by decide) (by decide) (by decide) rfl).1,
   (claim_C6_client_error_abort cfg429 "A" (jstr "m") world400 400 none none
      (by decide) (by decide) (by decide) (by decide) rfl).2⟩

/-- Retry loop against an endpoint that always answers 500 from a fresh rate
limiter: every iteration makes one request, sleeps the exponential backoff and
retries, until the attempt budget is exhausted; the rate limiter is left
untouched and the world records exactly `fuel` extra requests to the endpoint
and the backoff sleeps in order. -/
theorem sendToWebhookAux_all_500 (cfg : TransportCfg) (url : String)
    (message : JStr) (resp : HttpFailureResponse) (h500 : resp.status = 500) :
    ∀ (fuel attempt : Nat) (w : World),
      (∀ n, w.oracle url n = .httpError resp) →
      ∃ w2, sendToWebhookAux cfg url message attempt fuel [] w = (false, [], w2) ∧
        w2.oracle = w.oracle ∧
        w2.sleeps = w.sleeps ++
          (List.range fuel).map (fun i => cfg.retryDelay * 2 ^ (attempt + i)) ∧
        (fuel = 0 → w2.counts = w.counts) ∧
        (1 ≤ fuel → lookupA url w2.counts = some ((lookupA url w.counts).getD 0 + fuel)) ∧
        (∀ u, u ≠ url → lookupA u w2.counts = lookupA u w.counts) := by
  intro fuel
  induction fuel with
  | zero =>
      intro attempt w _
      exact ⟨w, rfl, rfl, by simp, fun _ => rfl,
        fun h => absurd h (by omega), fun u _ => rfl⟩
  | succ f ih =>
      intro attempt w horacle
      have hstep : sendToWebhookAux cfg url message attempt (f + 1) [] w =
          sendToWebhookAux cfg url message (attempt + 1) f []
            (World.sleep
              { w with counts := insertA url ((lookupA url w.counts).getD 0 + 1) w.counts }
              (cfg.retryDelay * 2 ^ attempt)) := by
        simp only [sendToWebhookAux, isRateLimited, lookupA, Bool.false_eq_true, if_false,
          World.request, horacle, h500]
        rw [if_neg (by omega), if_neg (by omega)]
      set w3 : World := World.sleep
        { w with counts := insertA url ((lookupA url w.counts).getD 0 + 1) w.counts }
        (cfg.retryDelay * 2 ^ attempt) with hw3
      have horacle3 : ∀ n, w3.oracle url n = .httpError resp := horacle
      obtain ⟨w2, heq, hor, hsl, hc0, hc1, hcu⟩ := ih (attempt + 1) w3 horacle3
      have hl3 : lookupA url w3.counts = some ((lookupA url w.counts).getD 0 + 1) :=
        lookupA_insertA_self url _ w.counts
      refine ⟨w2, by rw [hstep]; exact heq, hor, ?_, fun h => absurd h (by omega), ?_, ?_⟩
      · rw [hsl]
        have h1 : w3.sleeps = w.sleeps ++ [cfg.retryDelay * 2 ^ attempt] := rfl
        rw [h1, List.append_assoc]
        congr 1
        rw [List.range_succ_eq_map, List.map_cons, List.map_map,
          List.singleton_append]
        simp only [List.cons.injEq]
        refine ⟨by simp, ?_⟩
        apply List.map_congr_left
        intro i _
        simp only [Function.comp_apply, Nat.succ_eq_add_one]
        have h2 : attempt + 1 + i = attempt + (i + 1) := by omega
        rw [h2]
      · intro _
        by_cases hf : f = 0
        · subst hf
          rw [hc0 rfl, hl3]
        · rw [hc1 (by omega), hl3]
          simp only [Option.getD_some]
          congr 1
          omega
      · intro u hu
        rw [hcu u hu]
        exact lookupA_insertA_ne u url _ hu w.counts

/-- C5: endpoints are tried strictly in list order with failover: with
endpoints `[A, B]` where A always answers 500 and B always answers 200, the
dispatch succeeds; A receives exactly `maxRetries` requests, each followed by
its exponential backoff sleep (`retryDelay * 2 ^ attempt` in attempt order),
and B receives exactly one request. -/
theorem claim_C5_failover :
    ∀ (cfg : TransportCfg) (info : LogEntry) (urlA urlB : String) (w : World)
      (resp : HttpFailureResponse) (headers : SuccessHeaders),
      cfg.webhookUrls = [urlA, urlB] →
      urlA ≠ urlB →
      1 ≤ cfg.maxRetries →
      resp.status = 500 →
      (∀ n, w.oracle urlA n = .httpError resp) →
      (∀ n, w.oracle urlB n = .success headers) →
      w.counts = [] →
      w.sleeps = [] →
      (sendToDiscord cfg info [] w).1 = .ok () ∧
      lookupA urlA (sendToDiscord cfg info [] w).2.2.counts = some cfg.maxRetries ∧
      lookupA urlB (sendToDiscord cfg info [] w).2.2.counts = some 1 ∧
      (sendToDiscord cfg info [] w).2.2.sleeps =
        (List.range cfg.maxRetries).map (fun i => cfg.retryDelay * 2 ^ i) := by
  intro cfg info urlA urlB w resp headers hurls hAB hpos h500 hoA hoB hcounts hsleeps
  obtain ⟨w2, heq, hor, hsl, hc0, hc1, hcu⟩ :=
    sendToWebhookAux_all_500 cfg urlA (formatMessage cfg info) resp h500
      cfg.maxRetries 0 w hoA
  have hA : sendToWebhook cfg urlA (formatMessage cfg info) [] w = (false, [], w2) := heq
  have hlA : lookupA urlA w2.counts = some cfg.maxRetries := by
    have := hc1 hpos
    rw [hcounts] at this
    simpa [lookupA] using this
  have hlB : lookupA urlB w2.counts = none := by
    rw [hcu urlB (Ne.symm hAB), hcounts]
    rfl
  have hsl2 : w2.sleeps = (List.range cfg.maxRetries).map (fun i => cfg.retryDelay * 2 ^ i) := by
    rw [hsl, hsleeps]
    simp
  have hoB2 : w2.oracle urlB ((lookupA urlB w2.counts).getD 0) = .success headers := by
    rw [hor, hlB]
    exact hoB 0
  have hB := sendToWebhook_first_success cfg urlB (formatMessage cfg info) w2 headers hpos hoB2
  have hfinal : sendToDiscord cfg info [] w =
      (.ok (), recordSuccess [] urlB headers w2.now,
       { w2 with counts := insertA urlB ((lookupA urlB w2.counts).getD 0 + 1) w2.counts }) := by
    unfold sendToDiscord
    rw [hurls]
    simp only [sendToDiscordAux, hA, hB, Bool.false_eq_true, if_false,
      eq_self_iff_true, if_true]
  refine ⟨by rw [hfinal], ?_, ?_, ?_⟩
  · rw [hfinal]
    show lookupA urlA (insertA urlB _ w2.counts) = some cfg.maxRetries
    rw [lookupA_insertA_ne urlA urlB _ hAB, hlA]
  · rw [hfinal]
    show lookupA urlB (insertA urlB _ w2.counts) = some 1
    rw [lookupA_insertA_self, hlB]
    rfl
  · rw [hfinal]
    exact hsl2

/-- Two endpoints: A always answers 500, B always answers 200. -/
def worldAB : World :=
  ⟨fun u _ => if u = "A" then .httpError ⟨500, none, none⟩ else .success ⟨none, none⟩,
   [], 0, []⟩

/-- Transport over the endpoint list `[A, B]` with the constructor defaults. -/
def cfgAB : TransportCfg := ⟨["A", "B"], 3, 1000, 2000⟩

/-- Witness for C5 against the concrete `[A, B]` world. -/
theorem claim_C5_failover_witness :
    (cfgAB.webhookUrls = ["A", "B"] ∧ ("A" : String) ≠ "B" ∧ 1 ≤ cfgAB.maxRetries ∧
     (∀ n, worldAB.oracle "A" n = .httpError ⟨500, none, none⟩) ∧
     (∀ n, worldAB.oracle "B" n = .success ⟨none, none⟩)) ∧
    (sendToDiscord cfgAB sampleEntry [] worldAB).1 = .ok () ∧
    lookupA "A" (sendToDiscord cfgAB sampleEntry [] worldAB).2.2.counts =
      some cfgAB.maxRetries ∧
    lookupA "B" (sendToDiscord cfgAB sampleEntry [] worldAB).2.2.counts = some 1 ∧
    (sendToDiscord cfgAB sampleEntry [] worldAB).2.2.sleeps =
      (List.range cfgAB.maxRetries).map (fun i => cfgAB.retryDelay * 2 ^ i) := by
  have hA : ∀ n, worldAB.oracle "A" n = .httpError ⟨500, none, none⟩ := by
    intro n
    simp [worldAB]
  have hB : ∀ n, worldAB.oracle "B" n = .success ⟨none, none⟩ := by
    intro n
    simp [worldAB]
  have h := claim_C5_failover cfgAB sampleEntry "A" "B" worldAB ⟨500, none, none⟩
    ⟨none, none⟩ rfl (by decide) (by decide) rfl hA hB rfl rfl
  exact ⟨⟨rfl, by decide, by decide, hA, hB⟩, h.1, h.2.1, h.2.2.1, h.2.2.2⟩
